import Mathlib

/-
Verification of the biometric matching core of `fingerprint_auth.py`
(IoT-Fingerprint-Authentication).

Shallow embedding conventions:
* a descriptor vector (one SIFT feature vector, floating point in the source)
  is a `List ℚ`; a descriptor set (`numpy` 2-D array) is a `List (List ℚ)`;
* `numpy`'s `arr.size` (total element count) is `descSize`;
* the OpenCV matcher compares true L2 norms; we carry squared distances and
  use the equivalent squared form of each comparison (for nonnegative
  distances `d1 < 0.7 * d2` holds iff `100 * d1^2 < 49 * d2^2`);
* the CSV/`.npy` file stores become explicit state (`SysState`), and the
  per-day attendance CSV files become a map from date string to the
  optional list of rows in that day's file (`Ledger`);
* the tkinter message boxes signalling errors become explicit error values
  (`RegError`, `AuthError`).
-/

namespace FingerprintAuth

/-- One descriptor vector (a row of the descriptor array). -/
abbrev Desc := List ℚ

/-- A descriptor set: the 2-D array returned by `detectAndCompute`. -/
abbrev DescriptorSet := List Desc

/-- Total element count of a descriptor array, i.e. `numpy`'s `.size`
(for an `(n, 128)` array this is `n * 128`). -/
def descSize (A : DescriptorSet) : Nat := (A.map List.length).sum

/-- Squared Euclidean distance between two descriptor vectors
(the matcher's `NORM_L2` metric, squared to stay in `ℚ`). -/
def sqDist (u v : Desc) : ℚ := (List.zipWith (fun a b => (a - b) ^ 2) u v).sum

/-- Lowe ratio test from `get_good_matches` (line 97):
`m.distance < 0.7 * n.distance` on true L2 distances, carried here on
squared distances: for nonnegative distances the test is equivalent to
`100 * d1sq < 49 * d2sq` (see `ratio_test_iff_mono`). -/
def ratioAccept (d1sq d2sq : ℚ) : Bool := decide (100 * d1sq < 49 * d2sq)

/-- Maintain the two smallest distances seen so far, in ascending order
(the accumulator of the 2-nearest-neighbour search `knnMatch(desc1, desc2, k=2)`). -/
def insert2 (d : ℚ) : List ℚ → List ℚ
  | [] => [d]
  | [a] => if d < a then [d, a] else [a, d]
  | a :: b :: _ => if d < a then [d, a] else if d < b then [a, d] else [a, b]

/-- Squared distances of the (up to) two nearest neighbours of query vector
`q` in the candidate set, ascending — the per-query output of
`knnMatch(desc1, desc2, k=2)`. When the candidate set has fewer than two
vectors the list has fewer than two entries, exactly as the brute-force
matcher returns fewer than `k` matches. -/
def twoNearest (q : Desc) (cand : DescriptorSet) : List ℚ :=
  (cand.map (fun c => sqDist q c)).foldl (fun acc d => insert2 d acc) []

/-- One round of the ratio-test loop of `get_good_matches` (lines 93-98):
keep the nearest-neighbour distance for a query vector only when its
`knnMatch` list has exactly two entries and the ratio test passes. -/
def goodOf (desc2 : DescriptorSet) (q : Desc) : Option ℚ :=
  match twoNearest q desc2 with
  | [d1, d2] => if ratioAccept d1 d2 then some d1 else none
  | _ => none

/-- The matcher `get_good_matches(desc1, desc2)` (lines 75-100): returns
the list of accepted nearest-neighbour squared distances (standing for the
list `good` of accepted `DMatch` objects; only its length — the score — is
consumed by the caller). Returns `[]` immediately when either array has
`size == 0`; a neighbour pair is accepted only when the `knnMatch` result
for that query vector has exactly two entries and passes the ratio test. -/
def get_good_matches (desc1 desc2 : DescriptorSet) : List ℚ :=
  if descSize desc1 = 0 ∨ descSize desc2 = 0 then []
  else desc1.filterMap (goodOf desc2)

/-- C3: the ratio test accepts iff the nearest distance is strictly below
0.7 times the second-nearest distance, and (second-nearest fixed) strictly
decreasing the nearest distance never turns an accepted match into a
rejected one. Distances `d1`, `d2`, `d1'` are true (nonnegative) L2
distances; `ratioAccept` receives their squares as stored by the matcher. -/
theorem ratio_test_iff_mono (d1 d2 d1' : ℚ) (h1 : 0 ≤ d1) (h2 : 0 ≤ d2)
    (h1' : 0 ≤ d1') (hlt : d1' < d1) :
    (ratioAccept (d1 ^ 2) (d2 ^ 2) = true ↔ d1 < 7 / 10 * d2) ∧
    (ratioAccept (d1 ^ 2) (d2 ^ 2) = true → ratioAccept (d1' ^ 2) (d2 ^ 2) = true) := by
  simp only [ratioAccept, decide_eq_true_eq]
  refine ⟨⟨fun h => ?_, fun h => ?_⟩, fun h => ?_⟩
  · nlinarith [sq_nonneg (d1 + 7 / 10 * d2)]
  · nlinarith [sq_nonneg (d1 - 7 / 10 * d2)]
  · nlinarith [sq_nonneg d1']

/-- Witness for C3 at concrete distances 1, 2 and 1/2. -/
theorem ratio_test_iff_mono_instance :
    ratioAccept ((1 : ℚ) ^ 2) ((2 : ℚ) ^ 2) = true ∧
    ratioAccept (((1 : ℚ) / 2) ^ 2) ((2 : ℚ) ^ 2) = true := by
  have h := ratio_test_iff_mono 1 2 (1 / 2) (by norm_num) (by norm_num)
    (by norm_num) (by norm_num)
  exact ⟨h.1.mpr (by norm_num), h.2 (h.1.mpr (by norm_num))⟩

/-- C9: the matcher scores 0 (an empty good-match list, no error signalled)
whenever either descriptor array is empty, in both argument orders. -/
theorem empty_set_scores_zero (A B : DescriptorSet)
    (h : descSize A = 0 ∨ descSize B = 0) :
    (get_good_matches A B).length = 0 ∧ (get_good_matches B A).length = 0 := by
  constructor
  · rw [get_good_matches, if_pos h]; rfl
  · rw [get_good_matches, if_pos h.symm]; rfl

/-- Witness for C9 at `A = []`, `B = [[1, 2]]`. -/
theorem empty_set_scores_zero_instance :
    (get_good_matches [] [[(1 : ℚ), 2]]).length = 0 ∧
    (get_good_matches [[(1 : ℚ), 2]] []).length = 0 :=
  empty_set_scores_zero [] [[(1 : ℚ), 2]] (Or.inl rfl)

/-- C10: against a stored template holding exactly one descriptor vector the
score is always 0: the 2-nearest-neighbour search returns a single-entry
list for every query vector, and the ratio-test loop only keeps pairs of
length exactly 2. -/
theorem single_candidate_scores_zero (live : DescriptorSet) (c : Desc) :
    (get_good_matches live [c]).length = 0 := by
  rw [get_good_matches]
  split
  · rfl
  · rw [List.length_eq_zero, List.filterMap_eq_nil_iff]
    intro q _
    rfl

/-- Element-wise sum of two descriptor vectors (`numpy` row addition,
truncating to the common length as `zipWith` does). -/
def vecAdd (u v : Desc) : Desc := List.zipWith (· + ·) u v

/-- The `np.mean(rows, axis=0)` step of `create_template`: on a nonempty
list of equal-length rows it returns the element-wise mean; on a ragged
list (rows of different lengths) `numpy` raises instead of producing an
array, modelled as `none`. -/
def npMean (rows : List Desc) : Option Desc :=
  match rows with
  | [] => none
  | v :: rest =>
    if rest.all (fun w => w.length = v.length) then
      some ((rest.foldl vecAdd v).map (fun x => x / ((rest.length + 1 : Nat) : ℚ)))
    else none

/-- The template builder `create_template(captures)` (lines 102-117):
returns `None` on an empty capture list or when no descriptor rows remain
after pooling, otherwise the mean over all descriptor rows of all captures
(`all_descriptors` is the concatenation of every capture's rows). -/
def create_template (captures : List DescriptorSet) : Option Desc :=
  if captures = [] then none
  else if captures.flatten = [] then none
  else npMean captures.flatten

lemma vecAdd_getD (u v : Desc) (h : v.length = u.length) (i : Nat) :
    (vecAdd u v).getD i 0 = u.getD i 0 + v.getD i 0 := by
  rcases lt_or_ge i u.length with hi | hi
  · have hz : i < (vecAdd u v).length := by
      simpa [vecAdd, List.length_zipWith, h] using hi
    rw [List.getD_eq_getElem _ _ hz, List.getD_eq_getElem _ _ hi,
      List.getD_eq_getElem _ _ (h ▸ hi)]
    simp [vecAdd]
  · have hz : (vecAdd u v).length ≤ i := by
      simpa [vecAdd, List.length_zipWith, h] using hi
    rw [List.getD_eq_default _ _ hz, List.getD_eq_default _ _ hi,
      List.getD_eq_default _ _ (h ▸ hi)]
    ring

lemma foldl_vecAdd_length (l : List Desc) (acc : Desc) (n : Nat)
    (ha : acc.length = n) (hl : ∀ v ∈ l, v.length = n) :
    (l.foldl vecAdd acc).length = n := by
  induction l generalizing acc with
  | nil => exact ha
  | cons v rest ih =>
    rw [List.foldl_cons]
    refine ih (vecAdd acc v) ?_ (fun w hw => hl w (List.mem_cons_of_mem _ hw))
    simp [vecAdd, List.length_zipWith, ha, hl v (List.mem_cons_self _ _)]

lemma foldl_vecAdd_getD (l : List Desc) (acc : Desc) (n i : Nat)
    (ha : acc.length = n) (hl : ∀ v ∈ l, v.length = n) :
    (l.foldl vecAdd acc).getD i 0 =
      acc.getD i 0 + (l.map (fun v => v.getD i 0)).sum := by
  induction l generalizing acc with
  | nil => simp
  | cons v rest ih =>
    have hv : v.length = n := hl v (List.mem_cons_self _ _)
    have hacc' : (vecAdd acc v).length = n := by
      simp [vecAdd, List.length_zipWith, ha, hv]
    rw [List.foldl_cons, ih (vecAdd acc v) hacc'
        (fun w hw => hl w (List.mem_cons_of_mem _ hw)),
      vecAdd_getD acc v (by rw [ha, hv]) i]
    simp [add_assoc]

/-- C5 (amended): when all descriptor rows pooled from the captures share a
common length `n` and at least one row exists, `create_template` returns the
element-wise mean over all pooled rows; but a capture whose rows have a
mismatched length makes the whole build fail (`none`) rather than being
dropped. -/
theorem create_template_pointwise_mean (captures : List DescriptorSet) (n : Nat) :
    (captures.flatten ≠ [] → (∀ v ∈ captures.flatten, v.length = n) →
      create_template captures =
        some ((List.range n).map (fun i =>
          (captures.flatten.map (fun v => v.getD i 0)).sum /
            ((captures.flatten.length : Nat) : ℚ)))) ∧
    ((∃ v ∈ captures.flatten, v.length ≠ (captures.flatten.headD []).length) →
      create_template captures = none) := by
  constructor
  · intro hne hlen
    have hcap : captures ≠ [] := by
      intro hc; exact hne (by simp [hc])
    rw [create_template, if_neg hcap, if_neg hne]
    rcases hflat : captures.flatten with _ | ⟨v, rest⟩
    · exact absurd hflat hne
    · rw [hflat] at hlen
      have hv : v.length = n := hlen v (List.mem_cons_self _ _)
      have hrest : ∀ w ∈ rest, w.length = n :=
        fun w hw => hlen w (List.mem_cons_of_mem _ hw)
      rw [npMean, if_pos (by
        rw [List.all_eq_true]
        intro w hw
        simp [hrest w hw, hv])]
      congr 1
      refine List.ext_getElem ?_ ?_
      · rw [List.length_map, List.length_map, List.length_range,
          foldl_vecAdd_length rest v n hv hrest]
      · intro i h1 h2
        have hlen1 : (rest.foldl vecAdd v).length = n :=
          foldl_vecAdd_length rest v n hv hrest
        have hi : i < n := by
          simpa [List.length_map, hlen1] using h1
        rw [List.getElem_map, List.getElem_map, List.getElem_range,
          ← List.getD_eq_getElem _ 0 (by rw [hlen1]; exact hi),
          foldl_vecAdd_getD rest v n i hv hrest]
        simp [List.map_cons, List.sum_cons, List.length_cons]
  · intro hbad
    rcases hflat : captures.flatten with _ | ⟨v, rest⟩
    · rw [hflat] at hbad
      rcases hbad with ⟨w, hw, _⟩
      exact absurd hw (List.not_mem_nil w)
    · have hcap : captures ≠ [] := by
        intro hc
        rw [hc] at hflat
        exact List.noConfusion hflat
      rw [create_template, if_neg hcap, if_neg (by rw [hflat]; simp), hflat, npMean,
        if_neg ?_]
      rw [hflat] at hbad
      rcases hbad with ⟨w, hw, hwne⟩
      simp only [List.headD_cons] at hwne
      rcases List.mem_cons.mp hw with rfl | hwrest
      · exact absurd rfl hwne
      · rw [List.all_eq_true]
        intro hall
        exact hwne (by simpa using hall w hwrest)

/-- Witness for C5's amended theorem: two same-shape captures pool to the
element-wise mean of their rows. -/
theorem create_template_pointwise_mean_instance :
    create_template [[[(1 : ℚ), 2]], [[3, 4]]] = some [2, 3] := by
  have h := (create_template_pointwise_mean [[[(1 : ℚ), 2]], [[3, 4]]] 2).1
    (by simp) (by simp)
  rw [h]
  norm_num [List.range_succ]

/-- C5 counterexample: a capture with a mismatched row shape makes the
build fail (`none`) instead of being dropped, while the same usable capture
alone builds fine — refuting the claim that mismatched captures are dropped
rather than failing the whole build. -/
theorem mismatched_shapes_fail_build :
    create_template [[[(1 : ℚ), 2]], [[1, 2, 3]]] = none ∧
    create_template [[[(1 : ℚ), 2]]] = some [1, 2] := by
  constructor
  · simp [create_template, npMean]
  · norm_num [create_template, npMean]

/-- A row of `StudentDetails.csv`. -/
structure Subject where
  id : Nat
  name : String
  deriving DecidableEq, Repr

/-- The persistent store touched by `register` and the gallery scan of
`authenticate`: the subject directory CSV (`df`), the saved composite
templates (`Fingerprints/{id}_template.npy`) and the saved first-capture
descriptor sets (`Fingerprints/{id}_descriptors.npy`), each keyed by id. -/
structure SysState where
  df : List Subject
  templates : List (Nat × Option Desc)
  descriptors : List (Nat × DescriptorSet)
  deriving DecidableEq, Repr

/-- Errors surfaced by `register` through message boxes. -/
inductive RegError
  | duplicateId
  | noValidCaptures
  deriving DecidableEq, Repr

/-- The enrollment flow `register()` (lines 119-207), stripped of its GUI
plumbing: `acquire` is the sequence of descriptor sets the acquisition
collaborator would produce (webcam frames or an uploaded image). The
duplicate-id check happens before any capture is consumed; each capture is
kept only when `desc.size > 100`; with no valid capture nothing is stored;
otherwise the composite template, the first capture and the directory row
are all written. -/
def register (s : SysState) (user_id : Nat) (name : String)
    (acquire : List DescriptorSet) : Except RegError SysState :=
  if user_id ∈ s.df.map Subject.id then .error .duplicateId
  else
    if acquire.filter (fun dsc => decide (100 < descSize dsc)) = [] then
      .error .noValidCaptures
    else
      .ok { df := s.df ++ [⟨user_id, name⟩]
          , templates := s.templates ++
              [(user_id, create_template (acquire.filter (fun dsc => decide (100 < descSize dsc))))]
          , descriptors := s.descriptors ++
              [(user_id, (acquire.filter (fun dsc => decide (100 < descSize dsc))).headD [])] }

/-- C6: a successful enrollment makes any later enrollment under the same
id fail with `DuplicateId`, and the failure is independent of the captures
offered the second time (no capture work is consumed); afterwards exactly
one directory row, one stored template and one stored descriptor set exist
for that id, provided the starting store held none (which the first
successful `register` guarantees for the directory, and is assumed for the
two descriptor stores). -/
theorem duplicate_id_rejected (s s' : SysState) (i : Nat) (nm nm' : String)
    (acq acq' acq'' : List DescriptorSet)
    (ht : ∀ p ∈ s.templates, p.1 ≠ i) (hd : ∀ p ∈ s.descriptors, p.1 ≠ i)
    (h : register s i nm acq = .ok s') :
    register s' i nm' acq' = .error RegError.duplicateId ∧
    register s' i nm' acq' = register s' i nm' acq'' ∧
    s'.df.countP (fun u => decide (u.id = i)) = 1 ∧
    s'.templates.countP (fun p => decide (p.1 = i)) = 1 ∧
    s'.descriptors.countP (fun p => decide (p.1 = i)) = 1 := by
  by_cases hmem : i ∈ s.df.map Subject.id
  · rw [register, if_pos hmem] at h
    exact absurd h (by simp)
  · rw [register, if_neg hmem] at h
    by_cases hcap : acq.filter (fun dsc => decide (100 < descSize dsc)) = []
    · rw [if_pos hcap] at h
      exact absurd h (by simp)
    · rw [if_neg hcap] at h
      rw [Except.ok.injEq] at h
      subst h
      have hmem' : i ∈ (s.df ++ [(⟨i, nm⟩ : Subject)]).map Subject.id := by
        simp
      refine ⟨by rw [register, if_pos hmem'], by rw [register, if_pos hmem', register, if_pos hmem'], ?_, ?_, ?_⟩
      · rw [List.countP_append, List.countP_eq_zero.mpr, Nat.zero_add]
        · simp
        · intro u hu
          simp only [decide_eq_true_eq]
          intro he
          exact hmem (List.mem_map.mpr ⟨u, hu, he⟩)
      · rw [List.countP_append, List.countP_eq_zero.mpr, Nat.zero_add]
        · simp
        · intro p hp
          simpa using ht p hp
      · rw [List.countP_append, List.countP_eq_zero.mpr, Nat.zero_add]
        · simp
        · intro p hp
          simpa using hd p hp

/-- One valid capture for the demo enrollments: a single descriptor vector
of 101 zeros (`size = 101 > 100`). -/
def demoCapture : DescriptorSet := [List.replicate 101 (0 : ℚ)]

/-- The empty store before the first enrollment. -/
def demoS0 : SysState := ⟨[], [], []⟩

/-- The store after enrolling id 7 from `demoCapture`. -/
def demoS7 : SysState :=
  ⟨[⟨7, "Dilip"⟩], [(7, create_template [demoCapture])], [(7, demoCapture)]⟩

/-- Witness for C6: after enrolling id 7 once, a second attempt under id 7
fails with `DuplicateId` and exactly one directory row for id 7 remains. -/
theorem duplicate_id_rejected_instance :
    register demoS7 7 "Mallory" [demoCapture] = .error RegError.duplicateId ∧
    demoS7.df.countP (fun u => decide (u.id = 7)) = 1 := by
  have h := duplicate_id_rejected demoS0 demoS7 7 "Dilip" "Mallory" [demoCapture]
    [demoCapture] [] (by intro p hp; exact absurd hp (List.not_mem_nil p))
    (by intro p hp; exact absurd hp (List.not_mem_nil p)) (by rfl)
  exact ⟨h.1, h.2.2.1⟩

/-- A row of a day's attendance CSV
(`Id`, `Name`, `Date`, `Time`, `Score`; `Id` is `best_id`, which can be
`None`). -/
structure AttendanceEntry where
  id : Option Nat
  name : String
  date : String
  time : String
  score : Nat
  deriving DecidableEq, Repr

/-- The `Attendance/` directory: for each date string, the rows of
`attendance_{date}.csv` when that file exists. -/
def Ledger : Type := String → Option (List AttendanceEntry)

/-- The attendance write of `authenticate` (lines 301-315): read the
existing partition for the entry's date if the file exists, concatenate the
new row, and write the file for that date back. -/
def record (L : Ledger) (e : AttendanceEntry) : Ledger :=
  fun d =>
    if d = e.date then some (((L e.date).getD []) ++ [e]) else L d

/-- C7: recording appends the entry at the end of its date's partition,
keeping every prior row of that day in place and order; any other date's
partition is untouched; two recordings on the same date stack both rows in
arrival order; recordings on different dates land in their two separate
partitions. -/
theorem ledger_append_semantics (L : Ledger) (e e' : AttendanceEntry) (d : String) :
    record L e e.date = some (((L e.date).getD []) ++ [e]) ∧
    (d ≠ e.date → record L e d = L d) ∧
    (e'.date = e.date →
      record (record L e) e' e.date = some (((L e.date).getD []) ++ [e, e'])) ∧
    (e'.date ≠ e.date →
      record (record L e) e' e.date = some (((L e.date).getD []) ++ [e]) ∧
      record (record L e) e' e'.date = some (((L e'.date).getD []) ++ [e'])) := by
  refine ⟨by simp [record], fun hd => by simp [record, hd], fun hsame => ?_, fun hdiff => ⟨?_, ?_⟩⟩
  · simp [record, hsame]
  · simp only [record]
    rw [if_neg (fun h => hdiff (Eq.symm h))]
    simp
  · simp only [record]
    simp [hdiff]

/-- A demo ledger: the `Attendance/` directory with no files yet. -/
def demoL0 : Ledger := fun _ => none

/-- Two demo attendance rows on the same date. -/
def demoE1 : AttendanceEntry := ⟨some 1, "Alice", "2026-10-12", "08:00:00", 30⟩

/-- Second demo attendance row, same subject, same date, later time. -/
def demoE2 : AttendanceEntry := ⟨some 1, "Alice", "2026-10-12", "17:00:00", 31⟩

/-- Witness for C7: recording Alice twice on 2026-10-12 leaves both rows in
that date's partition, in arrival order. -/
theorem ledger_append_semantics_instance :
    record (record demoL0 demoE1) demoE2 "2026-10-12" = some [demoE1, demoE2] := by
  have h := (ledger_append_semantics demoL0 demoE1 demoE2 "2026-10-12").2.2.1 rfl
  simpa [demoL0, demoE1] using h

/-- Errors surfaced by `authenticate` before the gallery scan: the
empty-directory early return ("No registered users") and the
poor-quality early return on `live_desc.size < 100`. -/
inductive AuthError
  | noEnrolledSubjects
  | insufficientFeatures
  deriving DecidableEq, Repr

/-- A verdict of the decision step of `authenticate`. -/
inductive Verdict
  | accepted
  | rejected
  deriving DecidableEq, Repr

/-- The outcome shown by `authenticate`'s message boxes: the verdict plus
the final `best_score`, `best_name` and `best_id`. -/
structure AuthResult where
  verdict : Verdict
  bestScore : Nat
  bestName : String
  bestId : Option Nat
  deriving DecidableEq, Repr

/-- The accept threshold of `authenticate` (line 224). -/
def threshold : Nat := 30

/-- The stored descriptors for an id, when
`Fingerprints/{id}_descriptors.npy` exists. -/
def lookupDesc (s : SysState) (i : Nat) : Option DescriptorSet :=
  (s.descriptors.find? (fun p => decide (p.1 = i))).map Prod.snd

/-- One iteration of `authenticate`'s gallery loop (lines 278-290): skip a
directory row with no stored descriptor file, otherwise score the stored
descriptors against the live capture and keep the row iff its score is
strictly greater than the best so far. -/
def bestStep (s : SysState) (live : DescriptorSet)
    (best : Nat × String × Option Nat) (u : Subject) : Nat × String × Option Nat :=
  match lookupDesc s u.id with
  | none => best
  | some stored =>
    if best.1 < (get_good_matches live stored).length then
      ((get_good_matches live stored).length, u.name, some u.id)
    else best

/-- The whole gallery loop, started from
`best_score = 0, best_name = "Unknown", best_id = None` (lines 221-223). -/
def bestMatch (s : SysState) (live : DescriptorSet) : Nat × String × Option Nat :=
  s.df.foldl (bestStep s live) (0, "Unknown", none)

/-- The authentication flow `authenticate()` (lines 209-318), stripped of
its GUI plumbing: early return when the directory is empty; early return
when the live capture has `size < 100`; otherwise scan the gallery, accept
iff `best_score >= threshold`, and record attendance only on acceptance. -/
def authenticate (s : SysState) (live : DescriptorSet) (date timeStr : String)
    (L : Ledger) : Except AuthError AuthResult × Ledger :=
  if s.df = [] then (.error .noEnrolledSubjects, L)
  else if descSize live < 100 then (.error .insufficientFeatures, L)
  else if threshold ≤ (bestMatch s live).1 then
    (.ok ⟨.accepted, (bestMatch s live).1, (bestMatch s live).2.1, (bestMatch s live).2.2⟩,
     record L ⟨(bestMatch s live).2.2, (bestMatch s live).2.1, date, timeStr, (bestMatch s live).1⟩)
  else
    (.ok ⟨.rejected, (bestMatch s live).1, (bestMatch s live).2.1, (bestMatch s live).2.2⟩, L)

lemma bestMatch_aux (s : SysState) (live : DescriptorSet) (l : List Subject) :
    ∀ acc : Nat × String × Option Nat,
      acc.1 ≤ (l.foldl (bestStep s live) acc).1 ∧
      (∀ u ∈ l, ∀ stored, lookupDesc s u.id = some stored →
        (get_good_matches live stored).length ≤ (l.foldl (bestStep s live) acc).1) ∧
      (l.foldl (bestStep s live) acc = acc ∨
        ∃ u ∈ l, ∃ stored, lookupDesc s u.id = some stored ∧
          l.foldl (bestStep s live) acc =
            ((get_good_matches live stored).length, u.name, some u.id) ∧
          acc.1 < (get_good_matches live stored).length) := by
  induction l with
  | nil =>
    intro acc
    exact ⟨le_refl _, by simp, Or.inl rfl⟩
  | cons u rest ih =>
    intro acc
    rw [List.foldl_cons]
    obtain ⟨ih1, ih2, ih3⟩ := ih (bestStep s live acc u)
    have hstep : acc.1 ≤ (bestStep s live acc u).1 ∧
        (∀ stored, lookupDesc s u.id = some stored →
          (get_good_matches live stored).length ≤ (bestStep s live acc u).1) ∧
        (bestStep s live acc u = acc ∨
          ∃ stored, lookupDesc s u.id = some stored ∧
            bestStep s live acc u =
              ((get_good_matches live stored).length, u.name, some u.id) ∧
            acc.1 < (get_good_matches live stored).length) := by
      cases hl : lookupDesc s u.id with
      | none =>
        have hb : bestStep s live acc u = acc := by
          simp only [bestStep, hl]
        rw [hb]
        refine ⟨le_refl _, fun st hst => ?_, Or.inl rfl⟩
        exact absurd hst (by simp)
      | some stored =>
        have hb : bestStep s live acc u =
            if acc.1 < (get_good_matches live stored).length then
              ((get_good_matches live stored).length, u.name, some u.id)
            else acc := by
          simp only [bestStep, hl]
        rw [hb]
        by_cases hlt : acc.1 < (get_good_matches live stored).length
        · rw [if_pos hlt]
          refine ⟨le_of_lt hlt, fun st hst => ?_, Or.inr ⟨stored, rfl, rfl, hlt⟩⟩
          obtain rfl : stored = st := Option.some.inj hst
          exact le_refl _
        · rw [if_neg hlt]
          refine ⟨le_refl _, fun st hst => ?_, Or.inl rfl⟩
          obtain rfl : stored = st := Option.some.inj hst
          exact Nat.le_of_not_lt hlt
    refine ⟨le_trans hstep.1 ih1, ?_, ?_⟩
    · intro v hv st hst
      rcases List.mem_cons.mp hv with rfl | hvrest
      · exact le_trans (hstep.2.1 st hst) ih1
      · exact ih2 v hvrest st hst
    · rcases ih3 with heq | ⟨v, hv, st, hst, heq, hgt⟩
      · rcases hstep.2.2 with hacc | ⟨st, hst, hacc, hgt⟩
        · exact Or.inl (heq.trans hacc)
        · exact Or.inr ⟨u, List.mem_cons_self _ _, st, hst, heq.trans hacc, hgt⟩
      · exact Or.inr ⟨v, List.mem_cons_of_mem _ hv, st, hst, heq,
          lt_of_le_of_lt hstep.1 hgt⟩

lemma bestMatch_spec (s : SysState) (live : DescriptorSet) :
    (∀ u ∈ s.df, ∀ stored, lookupDesc s u.id = some stored →
      (get_good_matches live stored).length ≤ (bestMatch s live).1) ∧
    (bestMatch s live = (0, "Unknown", none) ∨
      ∃ u ∈ s.df, ∃ stored, lookupDesc s u.id = some stored ∧
        bestMatch s live = ((get_good_matches live stored).length, u.name, some u.id) ∧
        0 < (get_good_matches live stored).length) :=
  ⟨(bestMatch_aux s live s.df (0, "Unknown", none)).2.1,
   (bestMatch_aux s live s.df (0, "Unknown", none)).2.2⟩

lemma authResult_components (s : SysState) (live : DescriptorSet)
    (d t : String) (L : Ledger) (r : AuthResult)
    (h : (authenticate s live d t L).1 = Except.ok r) :
    r.bestScore = (bestMatch s live).1 ∧ r.bestName = (bestMatch s live).2.1 ∧
    r.bestId = (bestMatch s live).2.2 ∧
    (r.verdict = Verdict.accepted ↔ threshold ≤ (bestMatch s live).1) := by
  by_cases hg : s.df = []
  · rw [authenticate, if_pos hg] at h
    exact absurd h (by simp)
  · by_cases hu : descSize live < 100
    · rw [authenticate, if_neg hg, if_pos hu] at h
      exact absurd h (by simp)
    · by_cases hth : threshold ≤ (bestMatch s live).1
      · rw [authenticate, if_neg hg, if_neg hu, if_pos hth] at h
        simp only [Except.ok.injEq] at h
        subst h
        exact ⟨rfl, rfl, rfl, by simp [hth]⟩
      · rw [authenticate, if_neg hg, if_neg hu, if_neg hth] at h
        simp only [Except.ok.injEq] at h
        subst h
        refine ⟨rfl, rfl, rfl, ?_⟩
        simp only [iff_false, hth]
        simp [hth]

/-- C1: whenever `authenticate` reaches a verdict (no early error return),
the verdict is `Accepted` iff the best score is at least the threshold,
the threshold is 30, and dually the verdict is `Rejected` iff the best
score is at most 29. -/
theorem accepted_iff_best_score (s : SysState) (live : DescriptorSet)
    (d t : String) (L : Ledger) (r : AuthResult)
    (h : (authenticate s live d t L).1 = Except.ok r) :
    threshold = 30 ∧ (r.verdict = Verdict.accepted ↔ 30 ≤ r.bestScore) ∧
    (r.verdict = Verdict.rejected ↔ r.bestScore < 30) := by
  obtain ⟨hs, _, _, hv⟩ := authResult_components s live d t L r h
  refine ⟨rfl, by rw [hs]; exact hv, ?_⟩
  rw [hs]
  constructor
  · intro hr
    by_contra hge
    have : r.verdict = Verdict.accepted := hv.mpr (Nat.le_of_not_lt hge)
    rw [hr] at this
    exact Verdict.noConfusion this
  · intro hlt
    cases hverdict : r.verdict with
    | accepted =>
      have h30 : (30 : Nat) ≤ (bestMatch s live).1 := hv.mp hverdict
      omega
    | rejected => rfl

/-- C8: when the verdict is `Rejected`, the attendance store is returned
untouched (no partition written) and the best score was strictly below
the threshold. -/
theorem rejected_writes_nothing (s : SysState) (live : DescriptorSet)
    (d t : String) (L : Ledger) (r : AuthResult)
    (h : (authenticate s live d t L).1 = Except.ok r)
    (hr : r.verdict = Verdict.rejected) :
    (authenticate s live d t L).2 = L ∧ r.bestScore < threshold := by
  obtain ⟨hs, _, _, hv⟩ := authResult_components s live d t L r h
  have hth : ¬ threshold ≤ (bestMatch s live).1 := by
    intro hth
    have := hv.mpr hth
    rw [hr] at this
    exact Verdict.noConfusion this
  constructor
  · by_cases hg : s.df = []
    · rw [authenticate, if_pos hg] at h
      exact absurd h (by simp)
    · by_cases hu : descSize live < 100
      · rw [authenticate, if_neg hg, if_pos hu] at h
        exact absurd h (by simp)
      · rw [authenticate, if_neg hg, if_neg hu, if_neg hth]
  · rw [hs]
    exact Nat.lt_of_not_le hth

/-- C2 (amended): with a nonempty directory, `authenticate` rejects with
`InsufficientFeatures` exactly when the live descriptor set has total
element count strictly below 100 — so a query of exactly 100 values is
treated as usable and does proceed to the gallery comparison. -/
theorem insufficient_features_iff (s : SysState) (live : DescriptorSet)
    (d t : String) (L : Ledger) (hg : s.df ≠ []) :
    (authenticate s live d t L).1 = Except.error AuthError.insufficientFeatures ↔
      descSize live < 100 := by
  constructor
  · intro h
    by_contra hu
    rw [authenticate, if_neg hg, if_neg hu] at h
    by_cases hth : threshold ≤ (bestMatch s live).1
    · rw [if_pos hth] at h
      exact Except.noConfusion h
    · rw [if_neg hth] at h
      exact Except.noConfusion h
  · intro hu
    rw [authenticate, if_neg hg, if_pos hu]

/-- C4 (amended): whenever `authenticate` reaches a verdict, the reported
`MatchResult` carries a maximal score over all enrolled subjects with a
stored descriptor file; when that best score is positive the reported
subject is one of the enrolled subjects with exactly that score, but when
every candidate scores 0 the sentinel (`best_id = None`,
`best_name = "Unknown"`, score 0) is reported instead of an enrolled
subject. -/
theorem best_match_enrolled_or_sentinel (s : SysState) (live : DescriptorSet)
    (d t : String) (L : Ledger) (r : AuthResult)
    (h : (authenticate s live d t L).1 = Except.ok r) :
    (∀ u ∈ s.df, ∀ stored, lookupDesc s u.id = some stored →
      (get_good_matches live stored).length ≤ r.bestScore) ∧
    ((r.bestScore = 0 ∧ r.bestName = "Unknown" ∧ r.bestId = none) ∨
      (∃ u ∈ s.df, ∃ stored, lookupDesc s u.id = some stored ∧
        r.bestId = some u.id ∧ r.bestName = u.name ∧
        r.bestScore = (get_good_matches live stored).length ∧
        0 < (get_good_matches live stored).length)) := by
  obtain ⟨hs, hn, hi, _⟩ := authResult_components s live d t L r h
  obtain ⟨hmax, hbest⟩ := bestMatch_spec s live
  constructor
  · intro u hu stored hst
    rw [hs]
    exact hmax u hu stored hst
  · rcases hbest with heq | ⟨u, hu, stored, hst, heq, hpos⟩
    · exact Or.inl ⟨by rw [hs, heq], by rw [hn, heq], by rw [hi, heq]⟩
    · exact Or.inr ⟨u, hu, stored, hst, by rw [hi, heq], by rw [hn, heq],
        by rw [hs, heq], hpos⟩

/-- A synthetic live query vector coinciding with the first stored vector
of the demo gallery entry. -/
def q0 : Desc := [0, 0, 0, 0]

/-- A synthetic live query vector far from both stored vectors, failing
the ratio test. -/
def qFar : Desc := [100, 100, 100, 100]

/-- The stored descriptor set of the demo gallery entry: one vector at the
origin (an unambiguous nearest neighbour for `q0`) and one far decoy. -/
def candAlice : DescriptorSet := [[0, 0, 0, 0], [10, 10, 10, 10]]

/-- The demo store holding a single enrolled subject, id 1, "Alice". -/
def demoSAlice : SysState :=
  ⟨[⟨1, "Alice"⟩], [(1, create_template [candAlice])], [(1, candAlice)]⟩

/-- Live query of 25 copies of `q0`: exactly 100 elements. -/
def live25 : DescriptorSet := List.replicate 25 q0

/-- Live query of 29 copies of `q0`: scores exactly threshold - 1. -/
def live29 : DescriptorSet := List.replicate 29 q0

/-- Live query of 30 copies of `q0`: scores exactly threshold. -/
def live30 : DescriptorSet := List.replicate 30 q0

/-- Live query of 30 copies of `qFar`: usable size but score 0. -/
def liveFar : DescriptorSet := List.replicate 30 qFar

lemma goodOf_q0 : goodOf candAlice q0 = some 0 := by
  norm_num [goodOf, twoNearest, candAlice, q0, sqDist, insert2, ratioAccept]

lemma goodOf_qFar : goodOf candAlice qFar = none := by
  norm_num [goodOf, twoNearest, candAlice, qFar, sqDist, insert2, ratioAccept]

lemma filterMap_replicate_some {α β : Type} (f : α → Option β) (a : α) (b : β)
    (h : f a = some b) (k : Nat) :
    (List.replicate k a).filterMap f = List.replicate k b := by
  induction k with
  | zero => rfl
  | succ n ih => simp [List.replicate_succ, List.filterMap_cons, h, ih]

lemma filterMap_replicate_none {α β : Type} (f : α → Option β) (a : α)
    (h : f a = none) (k : Nat) :
    (List.replicate k a).filterMap f = [] := by
  induction k with
  | zero => rfl
  | succ n ih => simp [List.replicate_succ, List.filterMap_cons, h, ih]

lemma descSize_replicate (k : Nat) (v : Desc) :
    descSize (List.replicate k v) = k * v.length := by
  simp [descSize, List.map_replicate, List.sum_replicate, smul_eq_mul]

lemma score_replicate_q0 (k : Nat) (hk : k ≠ 0) :
    (get_good_matches (List.replicate k q0) candAlice).length = k := by
  rw [get_good_matches, if_neg, filterMap_replicate_some _ _ _ goodOf_q0 k,
    List.length_replicate]
  rintro (h | h)
  · rw [descSize_replicate] at h
    simp [q0] at h
    exact hk h
  · simp [descSize, candAlice] at h

lemma score_replicate_qFar (k : Nat) :
    (get_good_matches (List.replicate k qFar) candAlice).length = 0 := by
  rw [get_good_matches]
  split
  · rfl
  · rw [filterMap_replicate_none _ _ goodOf_qFar k]
    rfl

lemma lookupDesc_demoSAlice : lookupDesc demoSAlice 1 = some candAlice := rfl

lemma bestMatch_demo_q0 (k : Nat) (hk : 0 < k) :
    bestMatch demoSAlice (List.replicate k q0) = (k, "Alice", some 1) := by
  have hscore := score_replicate_q0 k (by omega)
  simp only [bestMatch, show demoSAlice.df = [⟨1, "Alice"⟩] from rfl,
    List.foldl_cons, List.foldl_nil, bestStep, lookupDesc_demoSAlice, hscore]
  rw [if_pos hk]

lemma bestMatch_demo_qFar :
    bestMatch demoSAlice liveFar = (0, "Unknown", none) := by
  simp only [bestMatch, show demoSAlice.df = [⟨1, "Alice"⟩] from rfl,
    List.foldl_cons, List.foldl_nil, bestStep, lookupDesc_demoSAlice, liveFar,
    score_replicate_qFar]
  rw [if_neg (by omega)]

lemma auth_demo_q0 (k : Nat) (hk : 25 ≤ k) (d t : String) (L : Ledger) :
    (authenticate demoSAlice (List.replicate k q0) d t L).1 =
      Except.ok ⟨if 30 ≤ k then Verdict.accepted else Verdict.rejected,
        k, "Alice", some 1⟩ := by
  have hb := bestMatch_demo_q0 k (by omega)
  rw [authenticate, if_neg (by simp [demoSAlice]),
    if_neg (by rw [descSize_replicate]; simp [q0]; omega), hb]
  by_cases h30 : 30 ≤ k
  · rw [if_pos (show threshold ≤ (k, "Alice", (some 1 : Option Nat)).1 from h30),
      if_pos h30]
  · rw [if_neg (show ¬ threshold ≤ (k, "Alice", (some 1 : Option Nat)).1 from h30),
      if_neg h30]

lemma auth_demo_qFar (d t : String) (L : Ledger) :
    authenticate demoSAlice liveFar d t L =
      (Except.ok ⟨Verdict.rejected, 0, "Unknown", none⟩, L) := by
  rw [authenticate, if_neg (by simp [demoSAlice]),
    if_neg (by rw [liveFar, descSize_replicate]; simp [qFar]), bestMatch_demo_qFar,
    if_neg (by simp [threshold])]

/-- Witness for C1, at the two boundary scores the claim singles out: a
synthetic query scoring exactly 29 against the demo gallery is rejected,
and one scoring exactly 30 is accepted. -/
theorem accepted_iff_best_score_instance :
    (authenticate demoSAlice live29 "2026-10-12" "08:00:00" demoL0).1 =
      Except.ok ⟨Verdict.rejected, 29, "Alice", some 1⟩ ∧
    (authenticate demoSAlice live30 "2026-10-12" "08:00:00" demoL0).1 =
      Except.ok ⟨Verdict.accepted, 30, "Alice", some 1⟩ := by
  have e29 : live29 = List.replicate 29 q0 := rfl
  have e30 : live30 = List.replicate 30 q0 := rfl
  have h29 := auth_demo_q0 29 (by omega) "2026-10-12" "08:00:00" demoL0
  have h30 := auth_demo_q0 30 (by omega) "2026-10-12" "08:00:00" demoL0
  have hiff := accepted_iff_best_score demoSAlice live30 "2026-10-12" "08:00:00"
    demoL0 ⟨Verdict.accepted, 30, "Alice", some 1⟩ (by rw [e30, h30]; norm_num)
  rw [e29, e30, h29, h30]
  norm_num

/-- Witness for C2's amended theorem: an empty live descriptor set (size 0)
is rejected with `InsufficientFeatures` against the nonempty demo gallery. -/
theorem insufficient_features_iff_instance :
    (authenticate demoSAlice [] "2026-10-12" "08:00:00" demoL0).1 =
      Except.error AuthError.insufficientFeatures :=
  (insufficient_features_iff demoSAlice [] "2026-10-12" "08:00:00" demoL0
    (by simp [demoSAlice])).mpr (by simp [descSize])

/-- C2 counterexample: a live descriptor set of exactly 100 total elements
is not rejected as `InsufficientFeatures` — it proceeds to the gallery
comparison and gets a verdict — although the claim requires a set of
exactly 100 values to be rejected before any comparison. -/
theorem boundary_query_not_rejected :
    descSize live25 = 100 ∧
    (authenticate demoSAlice live25 "2026-10-12" "08:00:00" demoL0).1 =
      Except.ok ⟨Verdict.rejected, 25, "Alice", some 1⟩ := by
  have e25 : live25 = List.replicate 25 q0 := rfl
  have h25 := auth_demo_q0 25 (by omega) "2026-10-12" "08:00:00" demoL0
  rw [e25, descSize_replicate, h25]
  norm_num [q0]

/-- C4 counterexample: a usable query scoring 0 against every enrolled
subject of a nonempty gallery yields `best_id = None` and
`best_name = "Unknown"` — the reported subject is the sentinel, not one of
the enrolled subjects (the only enrolled subject is id 1, "Alice"). -/
theorem rejected_sentinel_not_enrolled :
    (authenticate demoSAlice liveFar "2026-10-12" "08:00:00" demoL0).1 =
      Except.ok ⟨Verdict.rejected, 0, "Unknown", none⟩ ∧
    demoSAlice.df = [⟨1, "Alice"⟩] := by
  rw [auth_demo_qFar "2026-10-12" "08:00:00" demoL0]
  exact ⟨rfl, rfl⟩

/-- Witness for C4's amended theorem: at the accepted demo run, the score
of the single enrolled subject is bounded by the reported best score. -/
theorem best_match_enrolled_or_sentinel_instance :
    (get_good_matches live30 candAlice).length ≤ 30 := by
  have e30 : live30 = List.replicate 30 q0 := rfl
  have h := best_match_enrolled_or_sentinel demoSAlice live30 "2026-10-12"
    "08:00:00" demoL0 ⟨Verdict.accepted, 30, "Alice", some 1⟩
    (by rw [e30, auth_demo_q0 30 (by omega) "2026-10-12" "08:00:00" demoL0]; norm_num)
  exact h.1 ⟨1, "Alice"⟩ (by simp [demoSAlice]) candAlice lookupDesc_demoSAlice

/-- Witness for C8: the rejected demo run returns the attendance store
unchanged. -/
theorem rejected_writes_nothing_instance :
    (authenticate demoSAlice liveFar "2026-10-12" "08:00:00" demoL0).2 = demoL0 ∧
    (0 : Nat) < threshold := by
  have h := rejected_writes_nothing demoSAlice liveFar "2026-10-12" "08:00:00"
    demoL0 ⟨Verdict.rejected, 0, "Unknown", none⟩
    (by rw [auth_demo_qFar "2026-10-12" "08:00:00" demoL0])
    rfl
  exact ⟨h.1, by simp [threshold]⟩

end FingerprintAuth
